import Mathlib

/-
Shallow embedding of the automation-utilities repository (web_actions.py,
excel_automation.py) and verification of the specification claims about it.

The Python code is embedded as pure Lean functions.  External effects
(Selenium element resolution, COM calls, sleeps) are made explicit: each
embedded operation takes the outcomes of its external calls as arguments
(oracles), and time-consuming operations return an explicit elapsed-time
or event-trace component.  Fallible code returns an Except value whose
error constructor names the Python exception that would be raised.
-/

/-- Python exceptions that the embedded fragments can raise. -/
inductive PyErr
  | parameterMissing
  | selectionNotFound
  | webElementNotFound
  | attributeError
  | typeError
deriving DecidableEq, Repr

/-- Embeds the dataclass `Data` of web_actions.py: a captured text together
with a status flag.  The `data` field starts as Python `None` inside
`validate_text`, hence `Option String`. -/
structure Data where
  data : Option String
  status : Bool
deriving DecidableEq, Repr

/-- Embeds module-level `_time_left(start, timeout)` of web_actions.py:
`max(0.0, timeout - (time.time() - start))`, with `now` standing for the
value of `time.time()` at the call.  Floats are modelled as rationals. -/
def time_left (start timeout now : ℚ) : ℚ :=
  max 0 (timeout - (now - start))

namespace WebActions

/-- Python `s.startswith(p)`, computed on the character lists. -/
def pyStartswith (s p : String) : Bool :=
  p.toList.isPrefixOf s.toList

/-- Embeds `WebActions._get_find_method`: a locator starting with `//` or
`(` is classified XPATH, anything else ID. -/
def get_find_method (element : String) : String :=
  if pyStartswith element "//" || pyStartswith element "(" then "XPATH"
  else "ID"

/-- Embeds the loop of `WebActions.validate_text` (web_actions.py lines
1080-1111).  The list `res` holds the outcome of
`self._get_element_if_exist` followed by reading `.text` for each of the
`no_of_attempts` iterations the loop would run: `some o` when the element
resolved with text `o`, `none` when resolution returned Python `None`
(suppressed escalation), in which case the immediate `self.element.text`
dereference on line 1084 raises AttributeError.  `acc` is the running
value of the local `data` (initially Python `None`).  A `stop_texts` of
Python `None` is passed as `[]` (both make the membership test skip). -/
def validate_text (text : String) (stop_texts : List String) :
    List (Option String) → Option String → Except PyErr Data
  | [], acc => .ok ⟨acc, false⟩
  | r :: rest, acc =>
    match r with
    | none => .error .attributeError
    | some o =>
      if o ∈ stop_texts then .ok ⟨some o, false⟩
      else if o = text then .ok ⟨some o, true⟩
      else validate_text text stop_texts rest (some o)

/-- Reference decision procedure written from the amended wording of claim
C1: each successful observation is checked against the stop-text list
first (immediate failure), then against the expected text (immediate
success); otherwise the observation is recorded and the next attempt runs;
exhaustion returns the last recorded observation with status false. -/
def validateSpec (text : String) (stop_texts : List String) :
    List String → Option String → Data
  | [], acc => ⟨acc, false⟩
  | o :: rest, acc =>
    if o ∈ stop_texts then ⟨some o, false⟩
    else if o = text then ⟨some o, true⟩
    else validateSpec text stop_texts rest (some o)

/-- Outcome of the underlying Selenium `WebDriverWait(..).until(cond)` call
inside `_get_element_if_exist`: the element was found, the wait timed out,
or some other exception escaped the wait. -/
inductive ResolveResult
  | found (e : Nat)
  | timeout
  | raises
deriving DecidableEq, Repr

/-- Embeds `WebActions._get_element_if_exist` (web_actions.py lines
219-256) restricted to its exception policy: every exception from the
wait is caught; with the instance flag `raise_exception` set it is
re-raised as WebElementNotFoundError, otherwise the method returns
Python `None`. -/
def get_element_if_exist (raise_exception : Bool) (r : ResolveResult) :
    Except PyErr (Option Nat) :=
  match r with
  | .found e => .ok (some e)
  | .timeout => if raise_exception then .error .webElementNotFound else .ok none
  | .raises => if raise_exception then .error .webElementNotFound else .ok none

/-- Embeds `WebActions.check_element_exist` (web_actions.py lines
269-313).  First component: result or raised exception; second component:
the value of the instance flag `self.raise_exception` after the call.
The method saves the flag, forces it to `False` around the helper call,
and restores it in a `finally` block, so the restore happens on the
found, empty and exception exit paths alike; afterwards the call-scoped
`raise_exception` parameter alone decides escalation of an empty result. -/
def check_element_exist (flag : Bool) (raise_exception : Bool)
    (r : ResolveResult) : Except PyErr (Option Nat) × Bool :=
  let original_flag := flag
  let helper := get_element_if_exist false r
  let restored := original_flag
  match helper with
  | .error e => (.error e, restored)
  | .ok (some elem) => (.ok (some elem), restored)
  | .ok none =>
    if raise_exception then (.error .webElementNotFound, restored)
    else (.ok none, restored)

/-- Observable outcome of one call of `WebActions.wait_until_text_matches`:
the returned boolean and the wall-clock seconds consumed. -/
structure WaitOutcome where
  result : Bool
  elapsed : Nat
deriving DecidableEq, Repr

/-- Embeds the loop of `WebActions.wait_until_text_matches` (web_actions.py
lines 964-974).  The loop keeps a counter (initially the caller's
`max_wait_time`); while it is positive it calls `_get_element_if_exist`
passing the CURRENT counter value as that call's own fresh time budget,
then compares the element text, sleeps 1 second and decrements the
counter by 1.  `resolve c` gives, for a call made with budget `c`, the
seconds that resolution consumed and whether an element was found whose
text equals the expected text. -/
def wait_until_text_matches (resolve : Nat → Nat × Bool) : Nat → WaitOutcome
  | 0 => ⟨false, 0⟩
  | t + 1 =>
    let r := resolve (t + 1)
    if r.2 then ⟨true, r.1⟩
    else
      let rest := wait_until_text_matches resolve t
      ⟨rest.result, r.1 + 1 + rest.elapsed⟩

/-- Python `needle in hay` on character lists: `needle` occurs as a
contiguous run of `hay` (the empty needle always occurs). -/
def listContains (needle : List Char) : List Char → Bool
  | [] => needle.isEmpty
  | c :: rest => needle.isPrefixOf (c :: rest) || listContains needle rest

/-- Python substring test `needle in hay` on strings. -/
def pyStrIn (needle hay : String) : Bool :=
  listContains needle.toList hay.toList

/-- One entry of the `steps` list passed to
`WebActions.repeat_steps_until_success`: a Python dict whose optional keys
are modelled as `Option` fields (`none` = key absent). -/
structure Step where
  action : String
  text : Option String
  stop_texts : Option (List String)
  max_wait_time : Option Int
  no_of_attempts : Option Int
  name : Option String
deriving DecidableEq, Repr

/-- The local variables of `repeat_steps_until_success` that its retry and
stop logic reads and writes during a pass: the shared `max_wait_time` and
`no_of_attempts` variables (both rebound from per-step overrides), the
`data` slot (text captured by the most recent validate_text step,
initially Python `None`) and the `break_flag`. -/
structure PassState where
  mwt : Int
  n : Int
  data : Option String
  breakFlag : Bool
deriving DecidableEq, Repr

/-- Embeds the body of the `for step in steps` loop of
`repeat_steps_until_success` (web_actions.py lines 750-828) for one step,
restricted to its effect on the tracked locals.  Every step first rebinds
`max_wait_time` and `no_of_attempts` to its override if present, else to
the current shared value.  A `validate_text` step then calls
`self.validate_text` (its result for the step at index `i` of this pass
is the oracle `valRes i`: captured text and status), stores the captured
text in `data` and sets `break_flag` on a successful match.  The remaining
action kinds only perform external effects; they are modelled as
completing normally. -/
def execStep (valRes : Nat → String × Bool) (i : Nat) (st : PassState)
    (s : Step) : PassState :=
  let mwt := s.max_wait_time.getD st.mwt
  let n := s.no_of_attempts.getD st.n
  if s.action = "validate_text" then
    let r := valRes i
    ⟨mwt, n, some r.1, st.breakFlag || r.2⟩
  else
    ⟨mwt, n, st.data, st.breakFlag⟩

/-- Runs one full pass (`for step in steps`) from step index `i` on. -/
def runSteps (valRes : Nat → String × Bool) (i : Nat) (st : PassState) :
    List Step → PassState
  | [] => st
  | s :: rest => runSteps valRes (i + 1) (execStep valRes i st s) rest

/-- How one iteration of the `while no_of_attempts > 0` loop of
`repeat_steps_until_success` ends. -/
inductive PassOutcome
  | success (data : Option String)
  | stopBreak (data : Option String)
  | typeError
  | indexError
  | next (st : PassState)
deriving DecidableEq, Repr

/-- Embeds one iteration of the outer `while` loop of
`repeat_steps_until_success` (web_actions.py lines 749-837): run the pass,
decrement `no_of_attempts`, break if `break_flag` is set, otherwise
evaluate `any(data in stop_text for stop_text in
steps[-1].get("stop_texts", []))` — note it indexes `steps[-1]` only —
and break if it holds; else the loop proceeds to the next `while` test.
`steps[-1]` on an empty list raises IndexError and Python `None in
stop_text` raises TypeError, both modelled explicitly. -/
def passIteration (valRes : Nat → String × Bool) (steps : List Step)
    (st : PassState) : PassOutcome :=
  let st1 := runSteps valRes 0 st steps
  let st2 : PassState := ⟨st1.mwt, st1.n - 1, st1.data, st1.breakFlag⟩
  if st2.breakFlag then .success st2.data
  else
    match steps.getLast? with
    | none => .indexError
    | some last =>
      match last.stop_texts.getD [] with
      | [] => .next st2
      | s :: rest =>
        match st2.data with
        | none => .typeError
        | some d =>
          if (s :: rest).any (fun t => pyStrIn d t) then .stopBreak st2.data
          else .next st2

/-- A Python value as it occurs among the selection parameters and the
other locals of `_perform_selection_action` that Python `==` can match:
`None`, an int, a bool or a str.  The non-primitive locals (`self`,
`select_element`, `selection_params`) compare unequal to every primitive
and are therefore left out of the scan list. -/
inductive PyVal
  | none
  | int (n : Int)
  | bool (b : Bool)
  | str (s : String)
deriving DecidableEq, Repr

/-- Python truthiness of a PyVal (`bool(v)`). -/
def pyTruthy : PyVal → Bool
  | .none => false
  | .int n => n != 0
  | .bool b => b
  | .str s => s != ""

/-- Python `==` on PyVal: ints and bools compare numerically
(`True == 1`), values of otherwise different types compare unequal. -/
def pyEq : PyVal → PyVal → Bool
  | .none, .none => true
  | .int n, .int m => n == m
  | .bool a, .bool b => a == b
  | .int n, .bool b => n == (if b then (1 : Int) else 0)
  | .bool b, .int n => (if b then (1 : Int) else 0) == n
  | .str s, .str t => s == t
  | _, _ => false

/-- Python `str.removesuffix`: drop `suf` from the end of `s` when it is
a suffix, else return `s` unchanged (computed on the character lists). -/
def pyRemovesuffix (s suf : String) : String :=
  if suf.toList.isSuffixOf s.toList then
    (s.toList.take (s.toList.length - suf.toList.length)).asString
  else s

/-- Embeds the name scan of `_perform_selection_action` (web_actions.py
lines 533-536): `[i for i, a in locals().items() if a == available_option][0]`.
The iterable `locals().items()` is evaluated in the method scope in
insertion order: parameters `self, element, action, max_wait_time, index,
visible_text, value, is_clickable, name`, then the locals
`select_element, selection_params, available_option, method` assigned
before the comprehension runs (`method` holds the `..._by_` stem at that
point).  The omitted non-primitive entries can never equal the primitive
`available_option`; the scan always terminates at `available_option`
itself at the latest, so the fallback is unreachable. -/
def scanLocals (element action : String) (mwt : Int)
    (index visible_text value : PyVal) (is_clickable : Bool)
    (name : PyVal) (avail : PyVal) : String :=
  let stem := pyRemovesuffix action "_element" ++ "_by_"
  let pairs : List (String × PyVal) :=
    [("element", .str element), ("action", .str action),
     ("max_wait_time", .int mwt), ("index", index),
     ("visible_text", visible_text), ("value", value),
     ("is_clickable", .bool is_clickable), ("name", name),
     ("available_option", avail), ("method", .str stem)]
  match pairs.find? (fun p => pyEq p.2 avail) with
  | some p => p.1
  | Option.none => ""

/-- Embeds the dispatch loop of `_perform_selection_action` (web_actions.py
lines 523-540): iterate over `[index, visible_text, value]`; each non-None
entry overwrites `selection_params` with the method name built from the
scan and the entry itself, so the last non-None entry wins.
`selection_params` starts as the empty method name with value `""`. -/
def dispatchSelection (element action : String) (mwt : Int)
    (index visible_text value : PyVal) (is_clickable : Bool)
    (name : PyVal) : String × PyVal :=
  let pick := fun (acc : String × PyVal) (avail : PyVal) =>
    if avail = PyVal.none then acc
    else
      (pyRemovesuffix action "_element" ++ "_by_" ++
        scanLocals element action mwt index visible_text value is_clickable
          name avail,
       avail)
  [index, visible_text, value].foldl pick ("", PyVal.str "")

/-- The selection primitives the Selenium `Select` object actually has;
`getattr` with any other method name raises, which
`_perform_selection_action` converts to SelectionNotFoundError. -/
def validSelectMethods : List String :=
  ["select_by_index", "select_by_value", "select_by_visible_text",
   "deselect_by_index", "deselect_by_value", "deselect_by_visible_text",
   "deselect_all"]

/-- Externally visible actions of a `select_element` / `deselect_element`
call, in order: the element resolution attempt, and the invocation of a
selection primitive with its argument. -/
inductive SelEvent
  | resolve
  | invoke (method : String) (value : PyVal)
deriving DecidableEq, Repr

/-- Result of a selection call: the ordered external events it performed
and the exception it raised, if any. -/
structure SelOutcome where
  events : List SelEvent
  error : Option PyErr
deriving DecidableEq, Repr

/-- Embeds `_perform_selection_action` (web_actions.py lines 486-565):
resolve the element (the oracle `resolved` tells whether a handle came
back); when it did, build the method name by the dispatch loop and invoke
it via `getattr`, raising SelectionNotFoundError when the attribute
lookup or the primitive itself fails; when the element did not resolve,
silently do nothing. -/
def perform_selection_action (action element : String) (mwt : Int)
    (index visible_text value : PyVal) (is_clickable : Bool)
    (name : PyVal) (resolved : Bool) : SelOutcome :=
  if resolved then
    let mv := dispatchSelection element action mwt index visible_text value
      is_clickable name
    if mv.1 ∈ validSelectMethods then ⟨[.resolve, .invoke mv.1 mv.2], .none⟩
    else ⟨[.resolve], some .selectionNotFound⟩
  else ⟨[.resolve], .none⟩

/-- Embeds `WebActions.select_element` (web_actions.py lines 1315-1361):
`if not any([index, visible_text, value])` — Python truthiness — raises
ParameterMissingError before `_perform_selection_action` is called;
otherwise the dispatch runs. -/
def select_element (element : String) (mwt : Int) (name : PyVal)
    (is_clickable : Bool) (index visible_text value : PyVal)
    (resolved : Bool) : SelOutcome :=
  if pyTruthy index || pyTruthy visible_text || pyTruthy value then
    perform_selection_action "select_element" element mwt index visible_text
      value is_clickable name resolved
  else ⟨[], some .parameterMissing⟩

/-- Embeds `WebActions.deselect_element` (web_actions.py lines 1363-1402):
same truthiness gate, then `_perform_selection_action` with the action
string `deselect_element` and the defaults `is_clickable=True`,
`name=None`. -/
def deselect_element (element : String) (mwt : Int)
    (index visible_text value : PyVal) (resolved : Bool) : SelOutcome :=
  if pyTruthy index || pyTruthy visible_text || pyTruthy value then
    perform_selection_action "deselect_element" element mwt index visible_text
      value true PyVal.none resolved
  else ⟨[], some .parameterMissing⟩

end WebActions

namespace ExcelAutomation

/-- Outcome of one `self.excel.Quit()` attempt: it returned normally, or
raised a com_error whose strerror is the busy message, or raised any
other com_error. -/
inductive QuitResp
  | ok
  | busy
  | err
deriving DecidableEq, Repr

/-- Externally visible events of `ExcelAutomation.quit`: a graceful Quit
attempt, a sleep of the configured delay, or the forced taskkill of
excel.exe scoped to the current user. -/
inductive QuitEvent
  | graceful
  | sleep (d : Nat)
  | kill
deriving DecidableEq, Repr

/-- Embeds the `for i in range(retries)` loop of `ExcelAutomation.quit`
(excel_automation.py lines 278-301) as its event trace, with `remaining`
loop iterations left and `i` the current index.  A successful Quit breaks;
a busy com_error sleeps `delay` and retries; any other com_error runs the
forced taskkill and — having no break — also proceeds to the next
iteration. -/
def quitGo (resp : Nat → QuitResp) (delay : Nat) :
    Nat → Nat → List QuitEvent
  | _, 0 => []
  | i, remaining + 1 =>
    match resp i with
    | .ok => [.graceful]
    | .busy => .graceful :: .sleep delay :: quitGo resp delay (i + 1) remaining
    | .err => .graceful :: .kill :: quitGo resp delay (i + 1) remaining

/-- Embeds `ExcelAutomation.quit(retries, delay)`: the trace of the whole
loop, where `resp i` is the outcome of the graceful Quit attempt number
`i` (0-based). -/
def quit (resp : Nat → QuitResp) (retries delay : Nat) : List QuitEvent :=
  quitGo resp delay 0 retries

end ExcelAutomation

namespace WebActions

theorem listIsPrefixOf_self (l : List Char) : l.isPrefixOf l = true := by
  induction l with
  | nil => rfl
  | cons c rest ih => simp [List.isPrefixOf, ih]

theorem pyStrIn_refl (s : String) : pyStrIn s s = true := by
  unfold pyStrIn
  cases h : s.toList with
  | nil => rfl
  | cons c rest => simp [listContains, listIsPrefixOf_self]

/-- C8: locator classification is a pure function of the locator string:
strings starting with `//` or `(` map to XPATH, all others to ID, and
classifying the same string twice yields the same strategy. -/
theorem claim_C8 (s : String) :
    (get_find_method s = "XPATH" ↔
      (pyStartswith s "//" = true ∨ pyStartswith s "(" = true))
    ∧ (get_find_method s = "ID" ↔
      ¬(pyStartswith s "//" = true ∨ pyStartswith s "(" = true))
    ∧ get_find_method s = get_find_method s := by
  by_cases h1 : pyStartswith s "//" = true <;>
    by_cases h2 : pyStartswith s "(" = true <;>
      simp [get_find_method, h1, h2]

/-- Witness for C8 at concrete locators. -/
theorem claim_C8_witness :
    get_find_method "//div" = "XPATH" ∧ get_find_method "login" = "ID" :=
  ⟨(claim_C8 "//div").1.mpr (Or.inl (by decide)),
   (claim_C8 "login").2.1.mpr (by decide)⟩

/-- C5: `check_element_exist` restores the instance-wide `raise_exception`
flag to its pre-call value on every exit path — element found, empty
result, and exception from the underlying resolution alike — for every
initial flag value and every call-scoped `raise_exception` argument. -/
theorem claim_C5 (flag raise_exception : Bool) (r : ResolveResult) :
    (check_element_exist flag raise_exception r).2 = flag := by
  cases r <;> cases raise_exception <;> cases flag <;> rfl

theorem validate_text_cons_some (text : String) (stop_texts : List String)
    (o : String) (rest : List (Option String)) (acc : Option String) :
    validate_text text stop_texts (some o :: rest) acc =
      (if o ∈ stop_texts then .ok ⟨some o, false⟩
       else if o = text then .ok ⟨some o, true⟩
       else validate_text text stop_texts rest (some o)) := rfl

theorem validateSpec_cons (text : String) (stop_texts : List String)
    (o : String) (rest : List String) (acc : Option String) :
    validateSpec text stop_texts (o :: rest) acc =
      (if o ∈ stop_texts then ⟨some o, false⟩
       else if o = text then ⟨some o, true⟩
       else validateSpec text stop_texts rest (some o)) := rfl

theorem validate_text_eq_spec (text : String) (stops : List String) :
    ∀ (obs : List String) (acc : Option String),
      validate_text text stops (obs.map some) acc =
        .ok (validateSpec text stops obs acc)
  | [], _ => rfl
  | o :: rest, acc => by
    rw [List.map_cons, validate_text_cons_some, validateSpec_cons]
    by_cases h1 : o ∈ stops
    · simp [h1]
    · by_cases h2 : o = text
      · subst h2
        simp [h1]
      · simp only [if_neg h1, if_neg h2]
        exact validate_text_eq_spec text stops rest (some o)

theorem validateSpec_status_iff (text : String) (stops : List String) :
    ∀ (obs : List String) (acc : Option String),
      ((validateSpec text stops obs acc).status = true ↔
        ∃ i, obs.get? i = some text ∧
          ∀ j, j ≤ i → ∀ o, obs.get? j = some o → o ∉ stops)
  | [], acc => by simp [validateSpec]
  | o :: rest, acc => by
    rw [validateSpec_cons]
    by_cases h1 : o ∈ stops
    · rw [if_pos h1]
      constructor
      · intro hh; exact absurd hh (by simp)
      · rintro ⟨i, _, hall⟩
        have h0 : (o :: rest).get? 0 = some o := rfl
        exact absurd h1 (hall 0 (Nat.zero_le _) o h0)
    · by_cases h2 : o = text
      · rw [if_neg h1, if_pos h2]
        constructor
        · intro _
          refine ⟨0, by rw [h2]; rfl, ?_⟩
          intro j hj o' ho'
          have hj0 : j = 0 := Nat.le_zero.mp hj
          subst hj0
          have ho2 : o = o' := by simpa using ho'
          subst ho2
          exact h1
        · intro _; rfl
      · rw [if_neg h1, if_neg h2,
          validateSpec_status_iff text stops rest (some o)]
        constructor
        · rintro ⟨i, hi, hall⟩
          refine ⟨i + 1, hi, ?_⟩
          intro j hj o' ho'
          cases j with
          | zero =>
            have ho2 : o = o' := by simpa using ho'
            subst ho2
            exact h1
          | succ j' =>
            exact hall j' (Nat.le_of_succ_le_succ hj) o' ho'
        · rintro ⟨i, hi, hall⟩
          cases i with
          | zero =>
            have ho2 : o = text := by simpa using hi
            exact absurd ho2 h2
          | succ i' =>
            refine ⟨i', hi, ?_⟩
            intro j hj o' ho'
            exact hall (j + 1) (Nat.succ_le_succ hj) o' ho'

theorem validateSpec_no_event (text : String) (stops : List String) :
    ∀ (obs : List String) (acc : Option String),
      (∀ o ∈ obs, o ∉ stops ∧ o ≠ text) →
      validateSpec text stops obs acc = ⟨(obs.getLast?).or acc, false⟩
  | [], acc, _ => rfl
  | o :: rest, acc, h => by
    have ho := h o (by simp)
    rw [validateSpec_cons, if_neg ho.1, if_neg ho.2,
      validateSpec_no_event text stops rest (some o)
        (fun x hx => h x (by simp [hx]))]
    cases rest with
    | nil => rfl
    | cons r rs =>
      have hsome : ∃ x, (r :: rs).getLast? = some x := by
        cases hx : (r :: rs).getLast? with
        | none => exact absurd (List.getLast?_eq_none_iff.mp hx) (by simp)
        | some x => exact ⟨x, rfl⟩
      obtain ⟨x, hx⟩ := hsome
      simp [List.getLast?_cons_cons, hx, Option.or]

theorem validateSpec_first_event (text : String) (stops : List String) :
    ∀ (pre : List String) (o : String) (rest : List String)
      (acc : Option String),
      (∀ p ∈ pre, p ∉ stops ∧ p ≠ text) →
      validateSpec text stops (pre ++ o :: rest) acc =
        (if o ∈ stops then ⟨some o, false⟩
         else if o = text then ⟨some o, true⟩
         else validateSpec text stops rest (some o))
  | [], o, rest, acc, _ => by rw [List.nil_append, validateSpec_cons]
  | p :: ps, o, rest, acc, h => by
    have hp := h p (by simp)
    rw [List.cons_append, validateSpec_cons, if_neg hp.1, if_neg hp.2,
      validateSpec_first_event text stops ps o rest (some p)
        (fun x hx => h x (by simp [hx]))]

/-- C1 counterexample: expected text "x", stop list ["x"], one attempt
observing "x".  The observation equals the expected text, yet the call
returns status=false (the stop-text check runs first), refuting the
claim's assertion that an observation equal to the expected text causes
an immediate return with status=true. -/
theorem claim_C1_counterexample :
    validate_text "x" ["x"] [some "x"] Option.none =
      Except.ok ⟨some "x", false⟩ := rfl

/-- C1 (amended): for attempt count n > 0 and a sequence of successfully
observed texts, validate_text returns normally with status=true iff some
attempt observes the expected text with no attempt up to and including it
observing a stop text (the stop-text check has priority within an
attempt); otherwise status=false together with the last observed text:
on exhaustion the final observation, on a short-circuit the observation
that triggered it.  The returned value coincides with the reference
procedure `validateSpec`. -/
theorem claim_C1_amended (text : String) (stops obs : List String)
    (hn : 0 < obs.length) :
    (validate_text text stops (obs.map some) Option.none =
      Except.ok (validateSpec text stops obs Option.none))
    ∧ ((validateSpec text stops obs Option.none).status = true ↔
        ∃ i, obs.get? i = some text ∧
          ∀ j, j ≤ i → ∀ o, obs.get? j = some o → o ∉ stops)
    ∧ ((∀ o ∈ obs, o ∉ stops ∧ o ≠ text) →
        (validateSpec text stops obs Option.none).data = obs.getLast?)
    ∧ (∀ pre o rest, obs = pre ++ o :: rest →
        (∀ p ∈ pre, p ∉ stops ∧ p ≠ text) →
        (o ∈ stops ∨ o = text) →
        (validateSpec text stops obs Option.none).data = some o
        ∧ ((validateSpec text stops obs Option.none).status = true ↔
            (o ∉ stops ∧ o = text))) := by
  refine ⟨validate_text_eq_spec text stops obs Option.none,
    validateSpec_status_iff text stops obs Option.none, ?_, ?_⟩
  · intro hclean
    rw [validateSpec_no_event text stops obs Option.none hclean]
    cases obs with
    | nil => exact absurd hn (by simp)
    | cons o rest =>
      have hsome : ∃ x, (o :: rest).getLast? = some x := by
        cases hx : (o :: rest).getLast? with
        | none => exact absurd (List.getLast?_eq_none_iff.mp hx) (by simp)
        | some x => exact ⟨x, rfl⟩
      obtain ⟨x, hx⟩ := hsome
      simp [hx, Option.or]
  · intro pre o rest hobs hpre hev
    subst hobs
    rw [validateSpec_first_event text stops pre o rest Option.none hpre]
    by_cases h1 : o ∈ stops
    · rw [if_pos h1]
      exact ⟨rfl, ⟨fun hh => absurd hh (by simp), fun hc => absurd h1 hc.1⟩⟩
    · have h2 : o = text := hev.resolve_left h1
      rw [if_neg h1, if_pos h2]
      exact ⟨rfl, ⟨fun _ => ⟨h1, h2⟩, fun _ => rfl⟩⟩

/-- Witness for C1 (amended) at a concrete two-attempt run. -/
theorem claim_C1_amended_witness :
    0 < (["a", "done"] : List String).length ∧
    validate_text "done" ["err"] (["a", "done"].map some) Option.none =
      Except.ok (validateSpec "done" ["err"] ["a", "done"] Option.none) :=
  ⟨by decide,
   (claim_C1_amended "done" ["err"] ["a", "done"] (by decide)).1⟩

/-- C10: validate_text is total only when every per-attempt re-resolution
succeeds: if the attempts before index k neither match nor hit a stop
text and the resolution at attempt k returns Python None, the method
raises AttributeError instead of counting a failed observation or
returning a status=false result. -/
theorem claim_C10 (text : String) (stops : List String) (pre : List String)
    (rest : List (Option String)) (acc : Option String)
    (hpre : ∀ p ∈ pre, p ∉ stops ∧ p ≠ text) :
    validate_text text stops (pre.map some ++ Option.none :: rest) acc =
      Except.error PyErr.attributeError := by
  induction pre generalizing acc with
  | nil => rfl
  | cons p ps ih =>
    have hp := hpre p (by simp)
    rw [List.map_cons, List.cons_append, validate_text_cons_some,
      if_neg hp.1, if_neg hp.2]
    exact ih (some p) (fun x hx => hpre x (List.mem_cons_of_mem p hx))

/-- Witness for C10: one clean attempt, then a failed resolution. -/
theorem claim_C10_witness :
    validate_text "done" ["err"] (["a"].map some ++ Option.none :: [])
      Option.none = Except.error PyErr.attributeError :=
  claim_C10 "done" ["err"] ["a"] [] Option.none (by decide)

theorem passIteration_stop (valRes : Nat → String × Bool)
    (steps : List Step) (st : PassState) (d : String) (last : Step)
    (hlast : steps.getLast? = some last)
    (hbf : (runSteps valRes 0 st steps).breakFlag = false)
    (hdata : (runSteps valRes 0 st steps).data = some d)
    (hmem : d ∈ last.stop_texts.getD []) :
    passIteration valRes steps st = .stopBreak (some d) := by
  obtain ⟨s, srest, hsr⟩ : ∃ s srest, last.stop_texts.getD [] = s :: srest := by
    cases hls : last.stop_texts.getD [] with
    | nil =>
      rw [hls] at hmem
      exact absurd hmem (by simp)
    | cons a b => exact ⟨a, b, rfl⟩
  have hany : (s :: srest).any (fun t => pyStrIn d t) = true := by
    rw [List.any_eq_true]
    exact ⟨d, by rw [← hsr]; exact hmem, pyStrIn_refl d⟩
  simp only [passIteration, hlast, hbf, hdata, hsr, hany, Bool.false_eq_true,
    if_false, if_true]

/-- C2: after a full pass of repeat_steps_until_success that did not set
the success flag, if the captured data is a member of the final step's
stop-text set, the outer loop terminates (the iteration breaks); this
holds whether or not any validate_text step matched during the pass, and
the decision reads only the final step's stop-text set: any step list
producing the same pass state and carrying the same final stop-text set
yields the same terminal outcome. -/
theorem claim_C2 (valRes : Nat → String × Bool) (steps : List Step)
    (st : PassState) (d : String) (last : Step)
    (hlast : steps.getLast? = some last)
    (hbf : (runSteps valRes 0 st steps).breakFlag = false)
    (hdata : (runSteps valRes 0 st steps).data = some d)
    (hmem : d ∈ last.stop_texts.getD []) :
    passIteration valRes steps st = .stopBreak (some d)
    ∧ ∀ (steps' : List Step) (last' : Step),
        steps'.getLast? = some last' →
        last'.stop_texts = last.stop_texts →
        runSteps valRes 0 st steps' = runSteps valRes 0 st steps →
        passIteration valRes steps' st = .stopBreak (some d) := by
  refine ⟨passIteration_stop valRes steps st d last hlast hbf hdata hmem, ?_⟩
  intro steps' last' hlast' hstops hrun
  refine passIteration_stop valRes steps' st d last' hlast' ?_ ?_ ?_
  · rw [hrun]; exact hbf
  · rw [hrun]; exact hdata
  · rw [hstops]; exact hmem

/-- Witness for C2: a single validate_text step whose observation "done"
does not match the expected text "ok" but is in the final (only) step's
stop-text set; the iteration is terminal. -/
theorem claim_C2_witness :
    ("done" ∈ (Step.mk "validate_text" (some "ok") (some ["done"])
        Option.none Option.none Option.none).stop_texts.getD []) ∧
    passIteration (fun _ => ("done", false))
      [Step.mk "validate_text" (some "ok") (some ["done"])
        Option.none Option.none Option.none]
      (PassState.mk 300 3 Option.none false) =
      PassOutcome.stopBreak (some "done") :=
  ⟨by decide,
   (claim_C2 (fun _ => ("done", false))
      [Step.mk "validate_text" (some "ok") (some ["done"])
        Option.none Option.none Option.none]
      (PassState.mk 300 3 Option.none false) "done"
      (Step.mk "validate_text" (some "ok") (some ["done"])
        Option.none Option.none Option.none)
      rfl rfl rfl (by decide)).1⟩

theorem execStep_n_override (valRes : Nat → String × Bool) (i : Nat)
    (st : PassState) (s : Step) (v : Int)
    (h : s.no_of_attempts = some v) :
    (execStep valRes i st s).n = v := by
  unfold execStep
  by_cases ha : s.action = "validate_text" <;> simp [ha, h]

theorem execStep_n_keep (valRes : Nat → String × Bool) (i : Nat)
    (st : PassState) (s : Step)
    (h : s.no_of_attempts = none) :
    (execStep valRes i st s).n = st.n := by
  unfold execStep
  by_cases ha : s.action = "validate_text" <;> simp [ha, h]

theorem runSteps_n_no_override (valRes : Nat → String × Bool) :
    ∀ (l : List Step) (i : Nat) (st : PassState),
      (∀ s ∈ l, s.no_of_attempts = none) →
      (runSteps valRes i st l).n = st.n
  | [], _, _, _ => rfl
  | s :: rest, i, st, h => by
    rw [show runSteps valRes i st (s :: rest) =
      runSteps valRes (i + 1) (execStep valRes i st s) rest from rfl]
    rw [runSteps_n_no_override valRes rest (i + 1) (execStep valRes i st s)
      (fun x hx => h x (List.mem_cons_of_mem s hx))]
    exact execStep_n_keep valRes i st s (h s (by simp))

/-- C6: a per-step no_of_attempts override mutates the shared attempts
counter: after the pass runs a step carrying override v (and no later
step overrides again), the shared counter equals v regardless of the
caller's original argument and of everything before the override, and
when the outer loop proceeds to another pass its remaining budget is
v - 1 rather than the original minus one. -/
theorem claim_C6 (valRes : Nat → String × Bool) (st : PassState)
    (pre post : List Step) (step : Step) (v : Int)
    (hov : step.no_of_attempts = some v)
    (hpost : ∀ s ∈ post, s.no_of_attempts = none) :
    (runSteps valRes 0 st (pre ++ step :: post)).n = v
    ∧ ∀ st', passIteration valRes (pre ++ step :: post) st = .next st' →
        st'.n = v - 1 := by
  have hn : ∀ (l : List Step) (i : Nat) (s0 : PassState),
      (runSteps valRes i s0 (l ++ step :: post)).n = v := by
    intro l
    induction l with
    | nil =>
      intro i s0
      rw [show runSteps valRes i s0 (([] : List Step) ++ step :: post) =
        runSteps valRes (i + 1) (execStep valRes i s0 step) post from rfl]
      rw [runSteps_n_no_override valRes post (i + 1)
        (execStep valRes i s0 step) hpost]
      exact execStep_n_override valRes i s0 step v hov
    | cons a l ih =>
      intro i s0
      rw [show runSteps valRes i s0 ((a :: l) ++ step :: post) =
        runSteps valRes (i + 1) (execStep valRes i s0 a) (l ++ step :: post)
        from rfl]
      exact ih (i + 1) (execStep valRes i s0 a)
  refine ⟨hn pre 0 st, ?_⟩
  intro st' hnext
  have hkey : (runSteps valRes 0 st (pre ++ step :: post)).n = v :=
    hn pre 0 st
  simp only [passIteration] at hnext
  split at hnext
  · cases hnext
  · split at hnext
    · cases hnext
    · split at hnext
      · simp only [PassOutcome.next.injEq] at hnext
        subst hnext
        show (runSteps valRes 0 st (pre ++ step :: post)).n - 1 = v - 1
        rw [hkey]
      · split at hnext
        · cases hnext
        · split at hnext
          · cases hnext
          · simp only [PassOutcome.next.injEq] at hnext
            subst hnext
            show (runSteps valRes 0 st (pre ++ step :: post)).n - 1 = v - 1
            rw [hkey]

/-- Witness for C6: a click step overriding the attempts counter to 7
followed by an override-free validate step; the shared counter ends at 7,
not at the original 3. -/
theorem claim_C6_witness :
    ((Step.mk "click" Option.none Option.none Option.none (some 7)
        Option.none).no_of_attempts = some 7) ∧
    (runSteps (fun _ => ("done", true)) 0 (PassState.mk 300 3 Option.none false)
      ([] ++ (Step.mk "click" Option.none Option.none Option.none (some 7)
        Option.none) ::
        [Step.mk "validate_text" (some "done") Option.none Option.none
          Option.none Option.none])).n = 7 :=
  ⟨rfl,
   (claim_C6 (fun _ => ("done", true)) (PassState.mk 300 3 Option.none false)
      [] [Step.mk "validate_text" (some "done") Option.none Option.none
        Option.none Option.none]
      (Step.mk "click" Option.none Option.none Option.none (some 7)
        Option.none) 7 rfl (by simp)).1⟩

/-- C4 counterexample: timeout T = 2 with an element that never resolves
(each per-iteration resolution consumes its whole fresh budget).  The
wait returns false only after 5 seconds, exceeding T plus one polling
interval (2 + 1 = 3): the per-iteration resolution budgets do multiply
the configured wait time. -/
theorem claim_C4_counterexample :
    wait_until_text_matches (fun c => (c, false)) 2 =
      WaitOutcome.mk false 5
    ∧ ¬((wait_until_text_matches (fun c => (c, false)) 2).elapsed ≤ 2 + 1) :=
  ⟨rfl, by decide⟩

/-- C4 (amended): wait_until_text_matches runs at most T iterations, each
made of a resolution whose own budget (and hence duration) is the current
counter value plus a one-second sleep.  When the text never matches it
returns false, and its elapsed time is bounded by the quadratic
T * T + 2 * T — a counter-based bound, not the absolute wall-clock
deadline T + I of the original claim, which the counterexample refutes. -/
theorem claim_C4_amended (resolve : Nat → Nat × Bool) (T : Nat)
    (hdur : ∀ c, (resolve c).1 ≤ c)
    (hnever : ∀ c, (resolve c).2 = false) :
    (wait_until_text_matches resolve T).result = false
    ∧ (wait_until_text_matches resolve T).elapsed ≤ T * T + 2 * T := by
  induction T with
  | zero => exact ⟨rfl, by simp [wait_until_text_matches]⟩
  | succ t ih =>
    have hstep : wait_until_text_matches resolve (t + 1) =
        WaitOutcome.mk (wait_until_text_matches resolve t).result
          ((resolve (t + 1)).1 + 1 +
            (wait_until_text_matches resolve t).elapsed) := by
      simp only [wait_until_text_matches, hnever (t + 1), Bool.false_eq_true,
        if_false]
    rw [hstep]
    refine ⟨ih.1, ?_⟩
    have h1 := hdur (t + 1)
    have h2 := ih.2
    have hexp : (t + 1) * (t + 1) = t * t + 2 * t + 1 := by ring
    simp only []
    omega

/-- Witness for C4 (amended) with the never-resolving oracle and T = 2. -/
theorem claim_C4_amended_witness :
    (wait_until_text_matches (fun c => (c, false)) 2).result = false
    ∧ (wait_until_text_matches (fun c => (c, false)) 2).elapsed ≤
        2 * 2 + 2 * 2 :=
  claim_C4_amended (fun c => (c, false)) 2 (fun c => Nat.le_refl c)
    (fun _ => rfl)

theorem perform_selection_error_ne_pm (action element : String) (mwt : Int)
    (index visible_text value : PyVal) (is_clickable : Bool) (name : PyVal)
    (resolved : Bool) :
    (perform_selection_action action element mwt index visible_text value
      is_clickable name resolved).error ≠ some PyErr.parameterMissing := by
  unfold perform_selection_action
  split
  · dsimp only
    split <;> simp
  · simp

theorem dispatch_single_index (element action : String) (mwt n : Int)
    (ic : Bool) (name : PyVal) (hm : mwt ≠ n) :
    dispatchSelection element action mwt (.int n) .none .none ic name =
      (pyRemovesuffix action "_element" ++ "_by_" ++ "index", .int n) := by
  have hb : (mwt == n) = false := beq_eq_false_iff_ne.mpr hm
  simp [dispatchSelection, scanLocals, List.find?, pyEq, hb]

theorem dispatch_single_vt (element action : String) (mwt : Int)
    (s : String) (ic : Bool) (name : PyVal) (h1 : element ≠ s)
    (h2 : action ≠ s) :
    dispatchSelection element action mwt .none (.str s) .none ic name =
      (pyRemovesuffix action "_element" ++ "_by_" ++ "visible_text",
       .str s) := by
  have hb1 : (element == s) = false := beq_eq_false_iff_ne.mpr h1
  have hb2 : (action == s) = false := beq_eq_false_iff_ne.mpr h2
  simp [dispatchSelection, scanLocals, List.find?, pyEq, hb1, hb2]

theorem dispatch_single_value (element action : String) (mwt : Int)
    (s : String) (ic : Bool) (name : PyVal) (h1 : element ≠ s)
    (h2 : action ≠ s) :
    dispatchSelection element action mwt .none .none (.str s) ic name =
      (pyRemovesuffix action "_element" ++ "_by_" ++ "value", .str s) := by
  have hb1 : (element == s) = false := beq_eq_false_iff_ne.mpr h1
  have hb2 : (action == s) = false := beq_eq_false_iff_ne.mpr h2
  simp [dispatchSelection, scanLocals, List.find?, pyEq, hb1, hb2]

/-- C3 counterexample: supplying index 0 alone (with visible_text and
value absent) raises ParameterMissingError — `any([0, None, None])` is
false under Python truthiness — refuting the claim that any supplied
index, including 0, avoids the error and reaches a selection primitive. -/
theorem claim_C3_counterexample :
    select_element "el" 300 PyVal.none true (PyVal.int 0) PyVal.none
      PyVal.none true =
      SelOutcome.mk [] (some PyErr.parameterMissing) := rfl

/-- C3 (amended): select_element and deselect_element raise
ParameterMissingError iff index, visible_text and value are ALL falsy by
Python truthiness (absent, 0, or empty string) — in particular index 0
alone does raise — and when they do, no resolution is attempted.  When a
truthy parameter is supplied as the only non-None one of the three, the
element resolves, and its value does not collide with the earlier locals
the dispatch scan inspects (the locator, the action string, and for an
index the max_wait_time value), the selection primitive matching the
supplied parameter kind is invoked on it. -/
theorem claim_C3_amended (element : String) (mwt : Int) (name : PyVal)
    (is_clickable : Bool) (index visible_text value : PyVal)
    (resolved : Bool) :
    ((select_element element mwt name is_clickable index visible_text value
        resolved).error = some PyErr.parameterMissing
      ↔ (pyTruthy index = false ∧ pyTruthy visible_text = false ∧
          pyTruthy value = false))
    ∧ ((deselect_element element mwt index visible_text value
        resolved).error = some PyErr.parameterMissing
      ↔ (pyTruthy index = false ∧ pyTruthy visible_text = false ∧
          pyTruthy value = false))
    ∧ (pyTruthy index = false → pyTruthy visible_text = false →
        pyTruthy value = false →
        (select_element element mwt name is_clickable index visible_text
          value resolved).events = []
        ∧ (deselect_element element mwt index visible_text value
            resolved).events = [])
    ∧ (∀ n : Int, index = .int n → n ≠ 0 → visible_text = .none →
        value = .none → mwt ≠ n → resolved = true →
        (select_element element mwt name is_clickable index visible_text
          value resolved).events =
          [.resolve, .invoke "select_by_index" (.int n)]
        ∧ (deselect_element element mwt index visible_text value
            resolved).events =
          [.resolve, .invoke "deselect_by_index" (.int n)])
    ∧ (∀ s : String, visible_text = .str s → s ≠ "" → index = .none →
        value = .none → element ≠ s → s ≠ "select_element" →
        s ≠ "deselect_element" → resolved = true →
        (select_element element mwt name is_clickable index visible_text
          value resolved).events =
          [.resolve, .invoke "select_by_visible_text" (.str s)]
        ∧ (deselect_element element mwt index visible_text value
            resolved).events =
          [.resolve, .invoke "deselect_by_visible_text" (.str s)])
    ∧ (∀ s : String, value = .str s → s ≠ "" → index = .none →
        visible_text = .none → element ≠ s → s ≠ "select_element" →
        s ≠ "deselect_element" → resolved = true →
        (select_element element mwt name is_clickable index visible_text
          value resolved).events =
          [.resolve, .invoke "select_by_value" (.str s)]
        ∧ (deselect_element element mwt index visible_text value
            resolved).events =
          [.resolve, .invoke "deselect_by_value" (.str s)]) := by
  refine ⟨?_, ?_, ?_, ?_, ?_, ?_⟩
  · unfold select_element
    by_cases hg : (pyTruthy index || pyTruthy visible_text ||
        pyTruthy value) = true
    · rw [if_pos hg]
      constructor
      · intro hc
        exact absurd hc (perform_selection_error_ne_pm "select_element"
          element mwt index visible_text value is_clickable name resolved)
      · rintro ⟨h1, h2, h3⟩
        rw [h1, h2, h3] at hg
        simp at hg
    · rw [if_neg hg]
      simp only [Bool.or_eq_true, not_or, Bool.not_eq_true] at hg
      exact ⟨fun _ => ⟨hg.1.1, hg.1.2, hg.2⟩, fun _ => rfl⟩
  · unfold deselect_element
    by_cases hg : (pyTruthy index || pyTruthy visible_text ||
        pyTruthy value) = true
    · rw [if_pos hg]
      constructor
      · intro hc
        exact absurd hc (perform_selection_error_ne_pm "deselect_element"
          element mwt index visible_text value true PyVal.none resolved)
      · rintro ⟨h1, h2, h3⟩
        rw [h1, h2, h3] at hg
        simp at hg
    · rw [if_neg hg]
      simp only [Bool.or_eq_true, not_or, Bool.not_eq_true] at hg
      exact ⟨fun _ => ⟨hg.1.1, hg.1.2, hg.2⟩, fun _ => rfl⟩
  · intro h1 h2 h3
    have hg : (pyTruthy index || pyTruthy visible_text ||
        pyTruthy value) = false := by rw [h1, h2, h3]; rfl
    constructor
    · unfold select_element
      rw [if_neg (by simp [hg])]
    · unfold deselect_element
      rw [if_neg (by simp [hg])]
  · intro n hidx hn0 hvt hval hm hres
    subst hidx; subst hvt; subst hval; subst hres
    have hg : (pyTruthy (PyVal.int n) || pyTruthy PyVal.none ||
        pyTruthy PyVal.none) = true := by
      simp [pyTruthy, bne_iff_ne, hn0]
    constructor
    · unfold select_element
      rw [if_pos hg]
      unfold perform_selection_action
      rw [if_pos rfl, dispatch_single_index element "select_element" mwt n
        is_clickable name hm]
      rw [show pyRemovesuffix "select_element" "_element" ++ "_by_" ++
        "index" = "select_by_index" from rfl]
      have hmem : ("select_by_index" : String) ∈ validSelectMethods := by decide
      dsimp only
      rw [if_pos hmem]
    · unfold deselect_element
      rw [if_pos hg]
      unfold perform_selection_action
      rw [if_pos rfl, dispatch_single_index element "deselect_element" mwt n
        true PyVal.none hm]
      rw [show pyRemovesuffix "deselect_element" "_element" ++ "_by_" ++
        "index" = "deselect_by_index" from rfl]
      have hmem : ("deselect_by_index" : String) ∈ validSelectMethods := by decide
      dsimp only
      rw [if_pos hmem]
  · intro s hvt hs0 hidx hval hel hsel hdes hres
    subst hvt; subst hidx; subst hval; subst hres
    have hg : (pyTruthy PyVal.none || pyTruthy (PyVal.str s) ||
        pyTruthy PyVal.none) = true := by
      simp [pyTruthy, bne_iff_ne, hs0]
    constructor
    · unfold select_element
      rw [if_pos hg]
      unfold perform_selection_action
      rw [if_pos rfl, dispatch_single_vt element "select_element" mwt s
        is_clickable name hel (Ne.symm hsel)]
      rw [show pyRemovesuffix "select_element" "_element" ++ "_by_" ++
        "visible_text" = "select_by_visible_text" from rfl]
      have hmem : ("select_by_visible_text" : String) ∈ validSelectMethods := by decide
      dsimp only
      rw [if_pos hmem]
    · unfold deselect_element
      rw [if_pos hg]
      unfold perform_selection_action
      rw [if_pos rfl, dispatch_single_vt element "deselect_element" mwt s
        true PyVal.none hel (Ne.symm hdes)]
      rw [show pyRemovesuffix "deselect_element" "_element" ++ "_by_" ++
        "visible_text" = "deselect_by_visible_text" from rfl]
      have hmem : ("deselect_by_visible_text" : String) ∈ validSelectMethods := by decide
      dsimp only
      rw [if_pos hmem]
  · intro s hval hs0 hidx hvt hel hsel hdes hres
    subst hval; subst hidx; subst hvt; subst hres
    have hg : (pyTruthy PyVal.none || pyTruthy PyVal.none ||
        pyTruthy (PyVal.str s)) = true := by
      simp [pyTruthy, bne_iff_ne, hs0]
    constructor
    · unfold select_element
      rw [if_pos hg]
      unfold perform_selection_action
      rw [if_pos rfl, dispatch_single_value element "select_element" mwt s
        is_clickable name hel (Ne.symm hsel)]
      rw [show pyRemovesuffix "select_element" "_element" ++ "_by_" ++
        "value" = "select_by_value" from rfl]
      have hmem : ("select_by_value" : String) ∈ validSelectMethods := by decide
      dsimp only
      rw [if_pos hmem]
    · unfold deselect_element
      rw [if_pos hg]
      unfold perform_selection_action
      rw [if_pos rfl, dispatch_single_value element "deselect_element" mwt s
        true PyVal.none hel (Ne.symm hdes)]
      rw [show pyRemovesuffix "deselect_element" "_element" ++ "_by_" ++
        "value" = "deselect_by_value" from rfl]
      have hmem : ("deselect_by_value" : String) ∈ validSelectMethods := by decide
      dsimp only
      rw [if_pos hmem]

/-- Witness for C3 (amended): a lone visible_text "Germany" on locator
"country" invokes select_by_visible_text. -/
theorem claim_C3_amended_witness :
    (select_element "country" 300 PyVal.none true PyVal.none
      (PyVal.str "Germany") PyVal.none true).events =
      [SelEvent.resolve,
       SelEvent.invoke "select_by_visible_text" (PyVal.str "Germany")] :=
  ((claim_C3_amended "country" 300 PyVal.none true PyVal.none
      (PyVal.str "Germany") PyVal.none true).2.2.2.2.1 "Germany" rfl
      (by decide) rfl rfl (by decide) (by decide) (by decide) rfl).1

end WebActions

/-- C9: the remaining-budget function equals `max 0 (timeout − elapsed)`,
is never negative, and is monotonically non-increasing as the current
time advances within one wait. -/
theorem claim_C9 (start timeout now now' : ℚ) (h : now ≤ now') :
    time_left start timeout now = max 0 (timeout - (now - start))
    ∧ 0 ≤ time_left start timeout now
    ∧ time_left start timeout now' ≤ time_left start timeout now := by
  refine ⟨rfl, le_max_left _ _, ?_⟩
  unfold time_left
  have hmono : timeout - (now' - start) ≤ timeout - (now - start) := by linarith
  exact max_le_max le_rfl hmono

/-- Witness for C9 at concrete times. -/
theorem claim_C9_witness :
    (1 : ℚ) ≤ 2 ∧ time_left 0 5 2 ≤ time_left 0 5 1 :=
  ⟨by norm_num, (claim_C9 0 5 1 2 (by norm_num)).2.2⟩

namespace ExcelAutomation

theorem quitGo_busy_facts (resp : Nat → QuitResp) (delay : Nat) :
    ∀ (remaining i : Nat), (∀ j, j < remaining → resp (i + j) = .busy) →
      quitGo resp delay i remaining =
        (List.replicate remaining
          [QuitEvent.graceful, QuitEvent.sleep delay]).flatten
      ∧ QuitEvent.kill ∉ quitGo resp delay i remaining
      ∧ (quitGo resp delay i remaining).count QuitEvent.graceful = remaining
  | 0, i, _ => ⟨rfl, by simp [quitGo], rfl⟩
  | remaining + 1, i, h => by
    have h0 : resp i = .busy := by
      have := h 0 (Nat.succ_pos remaining)
      simpa using this
    have hrec := quitGo_busy_facts resp delay remaining (i + 1)
      (fun j hj => by
        have := h (j + 1) (Nat.succ_lt_succ hj)
        rw [show i + (j + 1) = i + 1 + j by omega] at this
        exact this)
    refine ⟨?_, ?_, ?_⟩
    · rw [show quitGo resp delay i (remaining + 1) =
        (match resp i with
         | .ok => [QuitEvent.graceful]
         | .busy => .graceful :: .sleep delay ::
             quitGo resp delay (i + 1) remaining
         | .err => .graceful :: .kill ::
             quitGo resp delay (i + 1) remaining) from rfl, h0]
      rw [hrec.1]
      simp [List.replicate, List.flatten]
    · rw [show quitGo resp delay i (remaining + 1) =
        (match resp i with
         | .ok => [QuitEvent.graceful]
         | .busy => .graceful :: .sleep delay ::
             quitGo resp delay (i + 1) remaining
         | .err => .graceful :: .kill ::
             quitGo resp delay (i + 1) remaining) from rfl, h0]
      intro hmem
      rcases hmem with _ | ⟨_, hmem⟩
      rcases hmem with _ | ⟨_, hmem⟩
      exact hrec.2.1 hmem
    · rw [show quitGo resp delay i (remaining + 1) =
        (match resp i with
         | .ok => [QuitEvent.graceful]
         | .busy => .graceful :: .sleep delay ::
             quitGo resp delay (i + 1) remaining
         | .err => .graceful :: .kill ::
             quitGo resp delay (i + 1) remaining) from rfl, h0]
      rw [List.count_cons, List.count_cons, hrec.2.2]
      simp

/-- C7 counterexample: retries = 3, delay = 2, all three graceful Quit
attempts report busy.  The call makes exactly 3 graceful attempts with a
sleep after each and then returns WITHOUT any forced kill, refuting the
claim that exhausting the busy retries is followed by a forced kill of
the host process. -/
theorem claim_C7_counterexample :
    quit (fun _ => QuitResp.busy) 3 2 =
      [QuitEvent.graceful, QuitEvent.sleep 2, QuitEvent.graceful,
       QuitEvent.sleep 2, QuitEvent.graceful, QuitEvent.sleep 2]
    ∧ QuitEvent.kill ∉ quit (fun _ => QuitResp.busy) 3 2 :=
  ⟨rfl, by decide⟩

/-- C7 (amended): when quit faces r consecutive busy responses it retries
the graceful quit exactly r times, sleeping the configured delay after
each busy attempt, and then returns with NO forced kill; a failure
response other than busy triggers the forced kill immediately after that
attempt (after which the loop goes on retrying gracefully). -/
theorem claim_C7_amended (resp : Nat → QuitResp) (retries delay : Nat)
    (hbusy : ∀ i, i < retries → resp i = .busy) :
    quit resp retries delay =
      (List.replicate retries
        [QuitEvent.graceful, QuitEvent.sleep delay]).flatten
    ∧ QuitEvent.kill ∉ quit resp retries delay
    ∧ (quit resp retries delay).count QuitEvent.graceful = retries
    ∧ ∀ (resp' : Nat → QuitResp), resp' 0 = .err → 0 < retries →
        (quit resp' retries delay).take 2 =
          [QuitEvent.graceful, QuitEvent.kill] := by
  have hfacts := quitGo_busy_facts resp delay retries 0
    (fun j hj => by simpa using hbusy j hj)
  refine ⟨hfacts.1, hfacts.2.1, hfacts.2.2, ?_⟩
  intro resp' herr hpos
  cases retries with
  | zero => exact absurd hpos (by simp)
  | succ k =>
    rw [show quit resp' (k + 1) delay =
      (match resp' 0 with
       | .ok => [QuitEvent.graceful]
       | .busy => .graceful :: .sleep delay :: quitGo resp' delay 1 k
       | .err => .graceful :: .kill :: quitGo resp' delay 1 k) from rfl,
      herr]
    rfl

/-- Witness for C7 (amended) at the all-busy oracle with 3 retries. -/
theorem claim_C7_amended_witness :
    QuitEvent.kill ∉ quit (fun _ => QuitResp.busy) 3 2
    ∧ (quit (fun _ => QuitResp.busy) 3 2).count QuitEvent.graceful = 3 :=
  ⟨(claim_C7_amended (fun _ => QuitResp.busy) 3 2 (fun _ _ => rfl)).2.1,
   (claim_C7_amended (fun _ => QuitResp.busy) 3 2 (fun _ _ => rfl)).2.2.1⟩

end ExcelAutomation
